import Mathlib

/-!
Verification of the HBMP Survey Manager core: the compiler from tabular
question-bank rows (Questions sheet, RespondentDetails sheet) to an ordered
form-building instruction stream, together with its validation and sorting
rules.  The definitions below are a shallow embedding of the Google Apps
Script source (`readQuestionsWithValidation`, `readRespondentDetails`,
`buildForm`, `handleGenerateForm`): cells are strings, JS string helpers are
modelled over `List Char`, and the stable comparator sort `Array.prototype.sort`
is modelled by `List.insertionSort` (insertion sort is the canonical stable
sort, and ECMAScript mandates a stable sort).
-/

namespace HBMP

/-! ## JS string primitives, modelled over the character list -/

/-- Model of JS `String.prototype.trim`: strip whitespace from both ends. -/
def jsTrim (s : String) : String :=
  ⟨((s.data.dropWhile Char.isWhitespace).reverse.dropWhile Char.isWhitespace).reverse⟩

/-- Model of JS `String.prototype.toUpperCase` (ASCII letters). -/
def jsUpper (s : String) : String :=
  ⟨s.data.map Char.toUpper⟩

def digitVal (c : Char) : Option Nat :=
  if c.isDigit then some (c.toNat - 48) else none

def natOfDigits : List Char → Nat → Option Nat
  | [], acc => some acc
  | c :: rest, acc =>
    match digitVal c with
    | some d => natOfDigits rest (10 * acc + d)
    | none => none

/-- Model of JS `parseFloat(cell) || 0` as used for the `Order` column,
restricted to integer-valued cells: an optionally signed decimal integer
string parses to its value, anything else (including the empty string,
whose `parseFloat` is `NaN`) falls back to `0`. -/
def parseOrder (s : String) : Int :=
  match (jsTrim s).data with
  | [] => 0
  | '-' :: cs =>
    if cs = [] then 0
    else
      match natOfDigits cs 0 with
      | some n => -(n : Int)
      | none => 0
  | cs =>
    match natOfDigits cs 0 with
    | some n => (n : Int)
    | none => 0

/-- Model of JS `String.prototype.localeCompare`'s order on section names:
lexicographic order on the character sequence.  Only the sign of the
comparator matters to the sort. -/
def sectionLt (a b : String) : Prop := List.Lex (· < ·) a.data b.data

instance : DecidableRel sectionLt := fun a b =>
  inferInstanceAs (Decidable (List.Lex (· < ·) a.data b.data))

/-- `a.localeCompare(b)` as a three-way integer comparator. -/
def strCmp (a b : String) : Int :=
  if sectionLt a b then -1 else if sectionLt b a then 1 else 0

/-! ## Data model -/

/-- One data row of the `Questions` sheet (header row excluded); each cell is
its raw string contents, the empty string standing for a blank/absent cell. -/
structure QRow where
  questionId : String
  sec : String
  orderCell : String
  typeCell : String
  questionText : String
  requiredCell : String
  opt1 : String
  opt2 : String
  opt3 : String
  opt4 : String
  opt5 : String
  goTo : String
deriving DecidableEq

/-- One data row of the `RespondentDetails` sheet. -/
structure RRow where
  fieldName : String
  typeCell : String
  requiredCell : String
  orderCell : String
  opt1 : String
  opt2 : String
  opt3 : String
  opt4 : String
  opt5 : String
deriving DecidableEq

/-- A normalized question record, as built by `readQuestionsWithValidation`.
The source's `section` field is named `sec` here (`section` is reserved). -/
structure Question where
  questionId : String
  sec : String
  order : Int
  type : String
  questionText : String
  required : Bool
  options : List String
  goToSectionOnOption : String
deriving DecidableEq

/-- A normalized respondent-detail field, as built by `readRespondentDetails`. -/
structure RField where
  fieldName : String
  type : String
  required : Bool
  order : Int
  options : List String
deriving DecidableEq

/-- The `stats` object of `readQuestionsWithValidation`. -/
structure Stats where
  sectionsCount : Nat
  questionsCount : Nat
  skippedCount : Nat
  errors : List String
deriving DecidableEq

/-! ## Reading the Questions sheet with validation -/

def optCells (r : QRow) : List String :=
  [r.opt1, r.opt2, r.opt3, r.opt4, r.opt5]

def rOptCells (r : RRow) : List String :=
  [r.opt1, r.opt2, r.opt3, r.opt4, r.opt5]

/-- The option-collection loop over `Option1`..`Option5`: keep the trimmed
cell when it is non-blank, preserving column order. -/
def collectOpts (cells : List String) : List String :=
  cells.filterMap (fun c => if jsTrim c = "" then none else some (jsTrim c))

def validTypes : List String := ["MCQ", "CHECKBOX", "DROPDOWN", "TEXT", "PARAGRAPH"]

def isChoiceType (t : String) : Prop :=
  t = "MCQ" ∨ t = "CHECKBOX" ∨ t = "DROPDOWN"

instance (t : String) : Decidable (isChoiceType t) :=
  inferInstanceAs (Decidable (_ ∨ _ ∨ _))

/-- The `question` object literal built for one non-blank row (before option
collection). -/
def mkQuestion (r : QRow) : Question where
  questionId := r.questionId
  sec := r.sec
  order := parseOrder r.orderCell
  type := jsUpper r.typeCell
  questionText := r.questionText
  required := jsUpper r.requiredCell == "TRUE"
  options := []
  goToSectionOnOption := r.goTo

/-- Model of the JS `Set` of section names: insertion-ordered list without
duplicates; only its size is observable (as `sectionsCount`). -/
def insertSet (l : List String) (x : String) : List String :=
  if x ∈ l then l else l ++ [x]

/-- Mutable state of the row-processing loop of `readQuestionsWithValidation`:
accepted questions, the section-name set, and the skipped/error stats. -/
structure VState where
  questions : List Question
  sections : List String
  skipped : Nat
  errors : List String
deriving DecidableEq

/-- One iteration of the row loop of `readQuestionsWithValidation`
(source lines 934-987): blank question text is silently skipped (counted);
otherwise the row is normalized, its non-blank section is added to the
section set, options are collected for choice types, and the row is rejected
with an error message when a choice type has no options or the type is not in
the five-element enum; otherwise the question is accepted. -/
def step (s : VState) (r : QRow) : VState :=
  if jsTrim r.questionText = "" then
    { s with skipped := s.skipped + 1 }
  else
    let q0 := mkQuestion r
    let s1 := if q0.sec ≠ "" then { s with sections := insertSet s.sections q0.sec } else s
    let q := if isChoiceType q0.type then { q0 with options := collectOpts (optCells r) } else q0
    if isChoiceType q.type ∧ q.options = [] then
      { s1 with
        skipped := s1.skipped + 1,
        errors := s1.errors ++
          ["Question \"" ++ q.questionText ++ "\" has type " ++ q.type ++ " but no options"] }
    else if q.type ∉ validTypes then
      { s1 with
        skipped := s1.skipped + 1,
        errors := s1.errors ++
          ["Question \"" ++ q.questionText ++ "\" has invalid type: " ++ q.type] }
    else
      { s1 with questions := s1.questions ++ [q] }

/-- The question sort comparator (source lines 990-997): sections compared
with blank-last placement and `localeCompare`, then numeric order. -/
def cmpQuestion (a b : Question) : Int :=
  if a.sec ≠ b.sec then
    if a.sec = "" then 1
    else if b.sec = "" then -1
    else strCmp a.sec b.sec
  else a.order - b.order

/-- `a` may come before `b` under the comparator (comparator value `≤ 0`). -/
def questionLE (a b : Question) : Prop := cmpQuestion a b ≤ 0

instance : DecidableRel questionLE := fun a b =>
  inferInstanceAs (Decidable (cmpQuestion a b ≤ 0))

/-- `questions.sort(comparator)`: a stable sort by the comparator. -/
def sortQuestions (qs : List Question) : List Question :=
  List.insertionSort questionLE qs

def initState : VState := ⟨[], [], 0, []⟩

/-- Shallow embedding of `readQuestionsWithValidation`: the input is the list
of data rows of the `Questions` sheet (header excluded; `rows = []` is the
source's `data.length <= 1` case). -/
def readQuestionsWithValidation (rows : List QRow) : List Question × Stats :=
  if rows = [] then
    ([], ⟨0, 0, 0, ["No question rows found in Questions sheet"]⟩)
  else
    let s := rows.foldl step initState
    let sorted := sortQuestions s.questions
    (sorted, ⟨s.sections.length, sorted.length, s.skipped, s.errors⟩)

/-! ## Reading the RespondentDetails sheet -/

/-- The `field` object literal built for one non-blank respondent row:
blank type defaults to `TEXT`, then upper-cased. -/
def mkRField (r : RRow) : RField where
  fieldName := jsTrim r.fieldName
  type := jsUpper (if r.typeCell = "" then "TEXT" else r.typeCell)
  required := jsUpper r.requiredCell == "TRUE"
  order := parseOrder r.orderCell
  options := []

/-- One row of `readRespondentDetails` (source lines 330-365): blank field
name is skipped; a `DROPDOWN` field collects options and is skipped when it
has none; every other row — including one with an unknown type — is kept. -/
def parseRField (r : RRow) : Option RField :=
  if jsTrim r.fieldName = "" then none
  else
    let f := mkRField r
    if f.type = "DROPDOWN" then
      let f2 := { f with options := collectOpts (rOptCells r) }
      if f2.options = [] then none else some f2
    else some f

/-- The respondent-field comparator `a.order - b.order`, as a relation. -/
def fieldLE (a b : RField) : Prop := a.order - b.order ≤ 0

instance : DecidableRel fieldLE := fun a b =>
  inferInstanceAs (Decidable (a.order - b.order ≤ 0))

/-- Shallow embedding of `readRespondentDetails` over the data rows of the
`RespondentDetails` sheet. -/
def readRespondentDetails (rows : List RRow) : List RField :=
  List.insertionSort fieldLE (rows.filterMap parseRField)

/-! ## The form compiler (`buildForm`) -/

inductive ItemKind where
  | mcq
  | checkbox
  | dropdown
  | text
  | paragraph
deriving DecidableEq

/-- One instruction of the emitted form-building stream: a page break or a
typed input item. -/
inductive Instr where
  | pageBreak (title : String) (helpText : String)
  | item (kind : ItemKind) (title : String) (required : Bool) (options : List String)
deriving DecidableEq

def respondentHelp : String :=
  "Please provide your details before proceeding to the survey questions."

def surveyHelp : String := "Please answer the following questions."

/-- The per-field `switch` of `buildForm` (source lines 487-520): TEXT,
PARAGRAPH and DROPDOWN fields emit one item; any other type logs a warning
and emits nothing (`default: continue`). -/
def respondentItem (f : RField) : List Instr :=
  match f.type with
  | "TEXT" => [Instr.item ItemKind.text f.fieldName f.required []]
  | "PARAGRAPH" => [Instr.item ItemKind.paragraph f.fieldName f.required []]
  | "DROPDOWN" => [Instr.item ItemKind.dropdown f.fieldName f.required f.options]
  | _ => []

/-- The per-question `switch` of `buildForm` (source lines 547-606): the five
known types emit one item (options only for the choice types); any other type
emits nothing. -/
def questionItem (q : Question) : List Instr :=
  match q.type with
  | "MCQ" => [Instr.item ItemKind.mcq q.questionText q.required q.options]
  | "CHECKBOX" => [Instr.item ItemKind.checkbox q.questionText q.required q.options]
  | "DROPDOWN" => [Instr.item ItemKind.dropdown q.questionText q.required q.options]
  | "TEXT" => [Instr.item ItemKind.text q.questionText q.required []]
  | "PARAGRAPH" => [Instr.item ItemKind.paragraph q.questionText q.required []]
  | _ => []

/-- The question walk of `buildForm` (source lines 529-607): `cs` is the
`currentSection` variable (initially `none`); a section page break is emitted
when the question's section is non-blank and differs from `currentSection`,
and `currentSection` is updated exactly then. -/
def questionInstrs : Option String → List Question → List Instr
  | _, [] => []
  | cs, q :: rest =>
    if q.sec ≠ "" ∧ cs ≠ some q.sec then
      Instr.pageBreak q.sec ("Section: " ++ q.sec) ::
        (questionItem q ++ questionInstrs (some q.sec) rest)
    else
      questionItem q ++ questionInstrs cs rest

/-- The instruction stream emitted by `buildForm` (source lines 476-607): the
respondent block (when the field list is non-empty) followed by the question
walk. -/
def buildFormInstrs (resp : List RField) (qs : List Question) : List Instr :=
  (if 0 < resp.length then
      Instr.pageBreak ("Respondent Information") respondentHelp ::
        ((resp.map respondentItem).flatten ++
          [Instr.pageBreak ("Survey Questions") surveyHelp])
    else []) ++ questionInstrs none qs

/-- The full compile pipeline from raw rows to the instruction stream plus
validation stats (`handleGenerateForm` without the dry-run shortcut). -/
def compile (respRows : List RRow) (qRows : List QRow) : List Instr × Stats :=
  let res := readQuestionsWithValidation qRows
  (buildFormInstrs (readRespondentDetails respRows) res.1, res.2)

/-- The caller-visible outcome of `handleGenerateForm`: the `ok` flag and the
stats object.  `ok` is false exactly on the source's
`questions.length === 0 && stats.skippedCount === 0` branch (lines 852-858);
every other path (dry run or real generation) reports `ok = true` with the
same stats. -/
structure GenResponse where
  ok : Bool
  stats : Stats
deriving DecidableEq

def handleGenerateForm (qRows : List QRow) : GenResponse :=
  let res := readQuestionsWithValidation qRows
  if res.1.length = 0 ∧ res.2.skippedCount = 0 then ⟨false, res.2⟩
  else ⟨true, res.2⟩

/-! ## Order theory of the question comparator -/

theorem sectionLt_trans {a b c : String} (h1 : sectionLt a b) (h2 : sectionLt b c) :
    sectionLt a c :=
  IsTrans.trans (α := List Char) (r := List.Lex (· < ·)) _ _ _ h1 h2

theorem sectionLt_asymm {a b : String} (h : sectionLt a b) : ¬ sectionLt b a :=
  IsAsymm.asymm (α := List Char) (r := List.Lex (· < ·)) _ _ h

theorem sectionLt_irrefl (a : String) : ¬ sectionLt a a :=
  fun h => sectionLt_asymm h h

theorem sectionLt_ne {a b : String} (h : sectionLt a b) : a ≠ b :=
  fun he => sectionLt_irrefl a (he ▸ h)

theorem not_sectionLt_empty (a : String) : ¬ sectionLt a "" :=
  fun h => List.Lex.not_nil_right _ _ h

theorem sectionLt_total {a b : String} (h : a ≠ b) : sectionLt a b ∨ sectionLt b a := by
  rcases (List.Lex.isTrichotomous (α := Char) (· < ·)).trichotomous a.data b.data with
    h1 | h1 | h1
  · exact Or.inl h1
  · exact absurd (by cases a; cases b; exact congrArg String.mk h1) h
  · exact Or.inr h1

theorem strCmp_nonpos_iff {a b : String} (h : a ≠ b) : strCmp a b ≤ 0 ↔ sectionLt a b := by
  unfold strCmp
  rcases sectionLt_total h with h1 | h1
  · rw [if_pos h1]
    simp [h1]
  · rw [if_neg (sectionLt_asymm h1), if_pos h1]
    simp [sectionLt_asymm h1]

/-- The comparator accepts `a` before `b` exactly when either the sections
agree and the orders are in order, or the sections disagree, `a`'s section is
non-blank, and `b`'s section is blank or alphabetically later. -/
theorem questionLE_iff (a b : Question) : questionLE a b ↔
    (a.sec = b.sec ∧ a.order ≤ b.order) ∨
    (a.sec ≠ b.sec ∧ a.sec ≠ "" ∧ (b.sec = "" ∨ sectionLt a.sec b.sec)) := by
  unfold questionLE cmpQuestion
  by_cases hs : a.sec = b.sec
  · simp [hs, sub_nonpos]
  · rw [if_pos hs]
    by_cases ha : a.sec = ""
    · rw [if_pos ha]
      simp only [hs, ha]
      simp
      exact fun h => absurd (ha.trans h) hs
    · rw [if_neg ha]
      by_cases hb : b.sec = ""
      · rw [if_pos hb]
        simp [hs, ha, hb]
      · rw [if_neg hb, strCmp_nonpos_iff hs]
        simp [hs, ha, hb]

instance : IsTotal Question questionLE := ⟨fun a b => by
  rcases eq_or_ne a.sec b.sec with hs | hs
  · rcases le_total a.order b.order with h | h
    · exact Or.inl ((questionLE_iff a b).mpr (Or.inl ⟨hs, h⟩))
    · exact Or.inr ((questionLE_iff b a).mpr (Or.inl ⟨hs.symm, h⟩))
  · by_cases ha : a.sec = ""
    · refine Or.inr ((questionLE_iff b a).mpr (Or.inr ⟨Ne.symm hs, ?_, Or.inl ha⟩))
      exact fun hb => hs (ha.trans hb.symm)
    · by_cases hb : b.sec = ""
      · exact Or.inl ((questionLE_iff a b).mpr (Or.inr ⟨hs, ha, Or.inl hb⟩))
      · rcases sectionLt_total hs with h | h
        · exact Or.inl ((questionLE_iff a b).mpr (Or.inr ⟨hs, ha, Or.inr h⟩))
        · exact Or.inr ((questionLE_iff b a).mpr (Or.inr ⟨Ne.symm hs, hb, Or.inr h⟩))⟩

instance : IsTrans Question questionLE := ⟨fun a b c hab hbc => by
  rw [questionLE_iff] at hab hbc ⊢
  rcases hab with ⟨hs1, ho1⟩ | ⟨hne1, ha1, h1⟩
  · rcases hbc with ⟨hs2, ho2⟩ | ⟨hne2, hb2, h2⟩
    · exact Or.inl ⟨hs1.trans hs2, ho1.trans ho2⟩
    · refine Or.inr ⟨fun h => hne2 (hs1.symm.trans h), fun h => hb2 (hs1.symm.trans h), ?_⟩
      rw [hs1]
      exact h2
  · rcases hbc with ⟨hs2, ho2⟩ | ⟨hne2, hb2, h2⟩
    · refine Or.inr ⟨fun h => hne1 (h.trans hs2.symm), ha1, ?_⟩
      rw [← hs2]
      exact h1
    · have hlt1 : sectionLt a.sec b.sec := by
        rcases h1 with hb | hlt
        · exact absurd hb hb2
        · exact hlt
      rcases h2 with hc | hlt2
      · exact Or.inr ⟨fun h => ha1 (h.trans hc), ha1, Or.inl hc⟩
      · have hlt3 := sectionLt_trans hlt1 hlt2
        exact Or.inr ⟨sectionLt_ne hlt3, ha1, Or.inr hlt3⟩⟩

/-- The ordering on accepted questions exactly as the spec describes it:
blank-section questions come after every question with a non-blank section;
non-blank sections are compared alphabetically; within one section (and among
the blank-section questions) the numeric order is ascending. -/
def specLE (a b : Question) : Prop :=
  (a.sec ≠ "" ∧ b.sec = "") ∨
  (a.sec = "" ∧ b.sec = "" ∧ a.order ≤ b.order) ∨
  (a.sec ≠ "" ∧ b.sec ≠ "" ∧ (sectionLt a.sec b.sec ∨ (a.sec = b.sec ∧ a.order ≤ b.order)))

/-- The code's comparator relation coincides with the spec's ordering. -/
theorem questionLE_iff_specLE (a b : Question) : questionLE a b ↔ specLE a b := by
  rw [questionLE_iff]
  unfold specLE
  constructor
  · rintro (⟨hs, ho⟩ | ⟨hs, ha, hb | hlt⟩)
    · by_cases ha : a.sec = ""
      · exact Or.inr (Or.inl ⟨ha, hs ▸ ha, ho⟩)
      · exact Or.inr (Or.inr ⟨ha, fun hb => ha (hs.trans hb), Or.inr ⟨hs, ho⟩⟩)
    · exact Or.inl ⟨ha, hb⟩
    · refine Or.inr (Or.inr ⟨ha, ?_, Or.inl hlt⟩)
      exact fun hb => not_sectionLt_empty a.sec (hb ▸ hlt)
  · rintro (⟨ha, hb⟩ | ⟨ha, hb, ho⟩ | ⟨ha, hb, hlt | ⟨heq, ho⟩⟩)
    · exact Or.inr ⟨fun h => ha (h.trans hb), ha, Or.inl hb⟩
    · exact Or.inl ⟨ha.trans hb.symm, ho⟩
    · exact Or.inr ⟨sectionLt_ne hlt, ha, Or.inr hlt⟩
    · exact Or.inl ⟨heq, ho⟩

/-! ## Stability of the comparator sort -/

theorem filter_orderedInsert_neg {α : Type} (r : α → α → Prop) [DecidableRel r]
    (p : α → Bool) (x : α) (l : List α) (hx : ¬ p x = true) :
    (List.orderedInsert r x l).filter p = l.filter p := by
  rw [List.orderedInsert_eq_take_drop, List.filter_append, List.filter_cons_of_neg hx,
    ← List.filter_append, List.takeWhile_append_dropWhile]

theorem filter_orderedInsert_pos {α : Type} (r : α → α → Prop) [DecidableRel r]
    (p : α → Bool) (x : α) (l : List α) (hx : p x = true)
    (hsel : ∀ y, p y = true → r x y) :
    (List.orderedInsert r x l).filter p = x :: l.filter p := by
  have htw : (List.takeWhile (fun b => decide ¬ r x b) l).filter p = [] := by
    rw [List.filter_eq_nil_iff]
    intro y hy hpy
    have := List.mem_takeWhile_imp hy
    exact (of_decide_eq_true this) (hsel y hpy)
  rw [List.orderedInsert_eq_take_drop, List.filter_append, htw,
    List.filter_cons_of_pos hx, List.nil_append]
  have := congrArg (List.filter p) (List.takeWhile_append_dropWhile (fun b => decide ¬ r x b) l)
  rw [List.filter_append, htw, List.nil_append] at this
  rw [this]

theorem filter_insertionSort {α : Type} (r : α → α → Prop) [DecidableRel r]
    (p : α → Bool) (hco : ∀ x y, p x = true → p y = true → r x y) :
    ∀ l : List α, (List.insertionSort r l).filter p = l.filter p
  | [] => rfl
  | x :: xs => by
    rw [List.insertionSort]
    by_cases hx : p x = true
    · rw [filter_orderedInsert_pos r p x _ hx (fun y hy => hco x y hx hy),
        filter_insertionSort r p hco xs, List.filter_cons_of_pos hx]
    · rw [filter_orderedInsert_neg r p x _ hx,
        filter_insertionSort r p hco xs, List.filter_cons_of_neg hx]

/-- A concrete question used by the claims' worked examples. -/
def mkQ (s : String) (o : Int) : Question :=
  ⟨"", s, o, "TEXT", "q", false, [], ""⟩

/-! ## Page-break accounting for the compiler -/

def isPageBreakB : Instr → Bool
  | Instr.pageBreak _ _ => true
  | _ => false

/-- Number of page-break instructions in a stream. -/
def countPageBreaks (l : List Instr) : Nat := (l.filter isPageBreakB).length

theorem countPageBreaks_append (l1 l2 : List Instr) :
    countPageBreaks (l1 ++ l2) = countPageBreaks l1 + countPageBreaks l2 := by
  simp [countPageBreaks, List.filter_append]

theorem countPageBreaks_questionItem (q : Question) :
    countPageBreaks (questionItem q) = 0 := by
  unfold countPageBreaks questionItem
  split <;> rfl

theorem countPageBreaks_items :
    ∀ qs : List Question, countPageBreaks ((qs.map questionItem).flatten) = 0
  | [] => rfl
  | q :: rest => by
    rw [List.map_cons, List.flatten_cons, countPageBreaks_append,
      countPageBreaks_questionItem, countPageBreaks_items rest]

/-- When every question's section is blank or already current, the walk emits
no page break: the stream is just the concatenated items. -/
theorem questionInstrs_no_break :
    ∀ (cs : Option String) (qs : List Question),
      (∀ q ∈ qs, q.sec = "" ∨ cs = some q.sec) →
      questionInstrs cs qs = (qs.map questionItem).flatten
  | _, [], _ => rfl
  | cs, q :: rest, h => by
    have hq := h q (List.mem_cons_self q rest)
    have hcond : ¬ (q.sec ≠ "" ∧ cs ≠ some q.sec) := by
      rcases hq with h1 | h1
      · exact fun hc => hc.1 h1
      · exact fun hc => hc.2 h1
    rw [questionInstrs, if_neg hcond,
      questionInstrs_no_break cs rest (fun x hx => h x (List.mem_cons_of_mem q hx)),
      List.map_cons, List.flatten_cons]

/-! ## The respondent block, per field -/

def knownFieldType (t : String) : Bool :=
  t == "TEXT" || t == "PARAGRAPH" || t == "DROPDOWN"

def fieldKind (t : String) : ItemKind :=
  if t == "PARAGRAPH" then ItemKind.paragraph
  else if t == "DROPDOWN" then ItemKind.dropdown
  else ItemKind.text

/-- The single item a known-typed respondent field emits. -/
def fieldItem (f : RField) : Instr :=
  Instr.item (fieldKind f.type) f.fieldName f.required
    (if f.type == "DROPDOWN" then f.options else [])

theorem respondentItem_eq (f : RField) :
    respondentItem f = if knownFieldType f.type then [fieldItem f] else [] := by
  unfold respondentItem
  split
  next heq => simp [knownFieldType, fieldItem, fieldKind, heq]
  next heq => simp [knownFieldType, fieldItem, fieldKind, heq]
  next heq => simp [knownFieldType, fieldItem, fieldKind, heq]
  next h1 h2 h3 =>
    simp [knownFieldType, h1, h2, h3]
    exact ⟨⟨h1, h2⟩, h3⟩

theorem respItems_flatten (resp : List RField) :
    (resp.map respondentItem).flatten =
      (resp.filter (fun f => knownFieldType f.type)).map fieldItem := by
  induction resp with
  | nil => rfl
  | cons f rest ih =>
    rw [List.map_cons, List.flatten_cons, respondentItem_eq, List.filter_cons]
    by_cases h : knownFieldType f.type
    · rw [if_pos h, if_pos h, List.map_cons, ih, List.singleton_append]
    · rw [if_neg h, if_neg h, ih, List.nil_append]

/-! ## The section set tracked by the stats aggregator -/

/-- The non-blank section cells of the rows with non-blank question text, in
row order (with repetitions). -/
def nonBlankTextSections (rows : List QRow) : List String :=
  ((rows.filter (fun r => !(jsTrim r.questionText == ""))).map (fun r => r.sec)).filter
    (fun t => !(t == ""))

theorem insertSet_nodup {l : List String} {x : String} (h : l.Nodup) :
    (insertSet l x).Nodup := by
  unfold insertSet
  split
  · exact h
  next hx =>
    rw [List.nodup_append]
    refine ⟨h, List.nodup_singleton x, ?_⟩
    intro a ha hax
    rw [List.mem_singleton] at hax
    exact hx (hax ▸ ha)

theorem insertSet_toFinset (l : List String) (x : String) :
    (insertSet l x).toFinset = l.toFinset ∪ {x} := by
  unfold insertSet
  split
  next hx =>
    ext a
    simp only [List.mem_toFinset, Finset.mem_union, Finset.mem_singleton]
    constructor
    · exact Or.inl
    · rintro (h | rfl)
      · exact h
      · exact hx
  next hx => simp [List.toFinset_append]

theorem mkQuestion_sec (r : QRow) : (mkQuestion r).sec = r.sec := rfl

/-- What one loop iteration does to the section set: nothing for a blank-text
or blank-section row, a set insertion otherwise — regardless of whether the
row is afterwards accepted or rejected. -/
theorem step_sections (s : VState) (r : QRow) :
    (step s r).sections =
      if jsTrim r.questionText = "" then s.sections
      else if (mkQuestion r).sec ≠ "" then insertSet s.sections (mkQuestion r).sec
      else s.sections := by
  simp only [step]
  split_ifs <;> rfl

theorem foldl_step_sections :
    ∀ (rows : List QRow) (s : VState), s.sections.Nodup →
      (rows.foldl step s).sections.Nodup ∧
      (rows.foldl step s).sections.toFinset =
        s.sections.toFinset ∪ (nonBlankTextSections rows).toFinset
  | [], s, h => ⟨h, by simp [nonBlankTextSections]⟩
  | r :: rest, s, h => by
    rw [List.foldl_cons]
    by_cases hb : jsTrim r.questionText = ""
    · have hsec : (step s r).sections = s.sections := by
        rw [step_sections, if_pos hb]
      have ih := foldl_step_sections rest (step s r) (by rw [hsec]; exact h)
      refine ⟨ih.1, ?_⟩
      rw [ih.2, hsec]
      have hspec : nonBlankTextSections (r :: rest) = nonBlankTextSections rest := by
        simp [nonBlankTextSections, List.filter_cons, hb]
      rw [hspec]
    · by_cases hsc : r.sec = ""
      · have hsec : (step s r).sections = s.sections := by
          rw [step_sections, if_neg hb, mkQuestion_sec, if_neg (by simp [hsc])]
        have ih := foldl_step_sections rest (step s r) (by rw [hsec]; exact h)
        refine ⟨ih.1, ?_⟩
        rw [ih.2, hsec]
        have hspec : nonBlankTextSections (r :: rest) = nonBlankTextSections rest := by
          simp [nonBlankTextSections, List.filter_cons, hb, hsc]
        rw [hspec]
      · have hsec : (step s r).sections = insertSet s.sections r.sec := by
          rw [step_sections, if_neg hb, mkQuestion_sec, if_pos (by simp [hsc])]
        have ih := foldl_step_sections rest (step s r)
          (by rw [hsec]; exact insertSet_nodup h)
        refine ⟨ih.1, ?_⟩
        rw [ih.2, hsec, insertSet_toFinset]
        have hspec : nonBlankTextSections (r :: rest) = r.sec :: nonBlankTextSections rest := by
          simp [nonBlankTextSections, List.filter_cons, hb, hsc]
        rw [hspec]
        ext a
        simp only [List.toFinset_cons, Finset.mem_union, Finset.mem_insert,
          Finset.mem_singleton, List.mem_toFinset]
        tauto

/-- Choice types are valid types. -/
theorem choice_mem_valid {t : String} (h : isChoiceType t) : t ∈ validTypes := by
  rcases h with h | h | h <;> subst h <;> simp [validTypes]

theorem questionsCount_eq_length (rows : List QRow) :
    (readQuestionsWithValidation rows).2.questionsCount =
      (readQuestionsWithValidation rows).1.length := by
  unfold readQuestionsWithValidation
  split <;> rfl

theorem withOptions_type (q : Question) (v : List String) :
    ({ q with options := v } : Question).type = q.type := rfl

theorem withOptions_questionText (q : Question) (v : List String) :
    ({ q with options := v } : Question).questionText = q.questionText := rfl

theorem withOptions_options (q : Question) (v : List String) :
    ({ q with options := v } : Question).options = v := rfl

theorem countPageBreaks_cons_pb (t h : String) (l : List Instr) :
    countPageBreaks (Instr.pageBreak t h :: l) = countPageBreaks l + 1 := by
  simp [countPageBreaks, List.filter_cons, isPageBreakB]

/-! ## Concrete rows used by the claims -/

/-- A row with non-blank text, non-blank section `S`, and the invalid type `FOO`. -/
def rowF : QRow := ⟨"", "S", "", "FOO", "Q1", "", "", "", "", "", "", ""⟩

/-- A row with non-blank text and the invalid type `NUMBER`. -/
def rowInvalid : QRow := ⟨"", "S", "", "NUMBER", "Q2", "", "", "", "", "", "", ""⟩

/-- A `CHECKBOX` question row whose five option cells are all blank. -/
def rowC : QRow := ⟨"", "", "", "CHECKBOX", "Q", "", "", "", "", "", "", ""⟩

/-- A required TEXT question row asking `Age?`. -/
def rowAge : QRow := ⟨"", "", "", "TEXT", "Age?", "TRUE", "", "", "", "", "", ""⟩

/-- A respondent-detail row with the unknown type `NUMBER`. -/
def rowN : RRow := ⟨"Favourite Number", "NUMBER", "TRUE", "1", "", "", "", "", ""⟩

/-- The accepted field the row `rowN` normalizes to. -/
def fieldN : RField := ⟨"Favourite Number", "NUMBER", true, 1, []⟩

/-- A TEXT respondent field. -/
def fieldT : RField := ⟨"Name", "TEXT", true, 1, []⟩

/-- A second respondent-detail row with an unknown type (`NUMBER`). -/
def rowU : RRow := ⟨"Nickname", "NUMBER", "TRUE", "2", "", "", "", "", ""⟩

/-! ## The claims -/

/-- C1, counterexample: on a single row with non-blank text, section `S` and
invalid type `FOO`, no question is accepted (the row is skipped), yet
`sectionsCount = 1` — the code adds the section to the set before the type
check, so a rejected row's non-blank section does contribute, contradicting
the claim that it contributes nothing. -/
theorem C1_counterexample :
    (readQuestionsWithValidation [rowF]).1 = [] ∧
    (readQuestionsWithValidation [rowF]).2.skippedCount = 1 ∧
    (readQuestionsWithValidation [rowF]).2.sectionsCount = 1 :=
  ⟨by decide, by decide, by decide⟩

/-- C1, amended: `sectionsCount` equals the number of distinct non-blank
section values among all rows with non-blank question text — including rows
later rejected for invalid type or missing options. -/
theorem C1_sectionsCount_all_rows (rows : List QRow) :
    (readQuestionsWithValidation rows).2.sectionsCount =
      (nonBlankTextSections rows).toFinset.card := by
  unfold readQuestionsWithValidation
  split
  next h =>
    subst h
    simp [nonBlankTextSections]
  next h =>
    have inv := foldl_step_sections rows initState (by simp [initState])
    show (rows.foldl step initState).sections.length =
      (nonBlankTextSections rows).toFinset.card
    rw [← List.toFinset_card_of_nodup inv.1, inv.2]
    simp [initState]

/-- C2: a row with non-blank question text whose normalized type is outside
the five-element enum is not accepted, increments the skipped counter by one,
and appends exactly the error
`Question "<questionText>" has invalid type: <type>`. -/
theorem C2_invalid_type_rejected (s : VState) (r : QRow)
    (hne : jsTrim r.questionText ≠ "")
    (hty : (mkQuestion r).type ∉ validTypes) :
    (step s r).questions = s.questions ∧
    (step s r).skipped = s.skipped + 1 ∧
    (step s r).errors = s.errors ++
      ["Question \"" ++ r.questionText ++ "\" has invalid type: " ++ (mkQuestion r).type] := by
  have hch : ¬ isChoiceType (mkQuestion r).type := fun h => hty (choice_mem_valid h)
  simp only [step, if_neg hne, if_neg hch]
  rw [if_neg (fun hc => hch hc.1), if_pos hty]
  split_ifs <;> exact ⟨rfl, rfl, rfl⟩

/-- C2 witness: the invalid-type row `rowInvalid` concretely exercises the
rejection. -/
theorem C2_invalid_type_rejected_witness :
    (step initState rowInvalid).questions = initState.questions ∧
    (step initState rowInvalid).skipped = initState.skipped + 1 ∧
    (step initState rowInvalid).errors = initState.errors ++
      ["Question \"" ++ rowInvalid.questionText ++ "\" has invalid type: " ++
        (mkQuestion rowInvalid).type] :=
  C2_invalid_type_rejected initState rowInvalid (by decide) (by decide)

/-- C3: a row with non-blank text, a choice type (MCQ/CHECKBOX/DROPDOWN) and
all five option cells blank is not accepted, increments the skipped counter
by one, and appends exactly the error
`Question "<questionText>" has type <type> but no options`; in particular a
single such CHECKBOX row yields `questionsCount = 0`, `skippedCount = 1` and
that single error. -/
theorem C3_choice_without_options_rejected :
    (∀ (s : VState) (r : QRow),
      jsTrim r.questionText ≠ "" → isChoiceType (mkQuestion r).type →
      jsTrim r.opt1 = "" → jsTrim r.opt2 = "" → jsTrim r.opt3 = "" →
      jsTrim r.opt4 = "" → jsTrim r.opt5 = "" →
      (step s r).questions = s.questions ∧
      (step s r).skipped = s.skipped + 1 ∧
      (step s r).errors = s.errors ++
        ["Question \"" ++ r.questionText ++ "\" has type " ++ (mkQuestion r).type ++
          " but no options"]) ∧
    readQuestionsWithValidation [rowC] =
      ([], ⟨0, 0, 1, ["Question \"Q\" has type CHECKBOX but no options"]⟩) := by
  refine ⟨?_, by decide⟩
  intro s r hne hch h1 h2 h3 h4 h5
  have hopts : collectOpts (optCells r) = [] := by
    simp [collectOpts, optCells, h1, h2, h3, h4, h5]
  simp only [step, if_neg hne, if_pos hch, withOptions_type, withOptions_options,
    withOptions_questionText]
  rw [if_pos (⟨hch, hopts⟩ : _ ∧ _)]
  split_ifs <;> exact ⟨rfl, rfl, rfl⟩

/-- C4: the question sorter yields a list ordered exactly as the spec
describes (blank sections last, non-blank sections alphabetical, ascending
numeric order within a section), it is a permutation of its input, exact ties
(same section and order) keep their input order, and the spec's worked
example sorts as stated. -/
theorem C4_sort_order :
    (∀ qs : List Question, List.Sorted specLE (sortQuestions qs)) ∧
    (∀ qs : List Question, (sortQuestions qs).Perm qs) ∧
    (∀ (qs : List Question) (t : String) (o : Int),
      (sortQuestions qs).filter (fun q => q.sec == t && q.order == o) =
        qs.filter (fun q => q.sec == t && q.order == o)) ∧
    sortQuestions [mkQ "" 1, mkQ "B" 5, mkQ "A" 2] =
      [mkQ "A" 2, mkQ "B" 5, mkQ "" 1] := by
  refine ⟨?_, ?_, ?_, by decide⟩
  · intro qs
    exact List.Pairwise.imp (fun h => (questionLE_iff_specLE _ _).mp h)
      (List.sorted_insertionSort questionLE qs)
  · intro qs
    exact List.perm_insertionSort questionLE qs
  · intro qs t o
    refine filter_insertionSort questionLE _ ?_ qs
    intro x y hx hy
    simp only [Bool.and_eq_true, beq_iff_eq] at hx hy
    exact (questionLE_iff x y).mpr
      (Or.inl ⟨hx.1.trans hy.1.symm, le_of_eq (hx.2.trans hy.2.symm)⟩)

/-- C5: questions with blank sections never produce a page break (the walk is
just the concatenated items); a run of questions sharing one non-blank
section that differs from the current one produces exactly one page break;
and the sorted sections `A, A, B` produce exactly two page breaks. -/
theorem C5_section_page_breaks :
    (∀ (cs : Option String) (qs : List Question), (∀ q ∈ qs, q.sec = "") →
      questionInstrs cs qs = (qs.map questionItem).flatten) ∧
    (∀ (cs : Option String) (t : String) (qs : List Question),
      t ≠ "" → cs ≠ some t → (∀ q ∈ qs, q.sec = t) → qs ≠ [] →
      countPageBreaks (questionInstrs cs qs) = 1) ∧
    countPageBreaks (buildFormInstrs [] [mkQ "A" 1, mkQ "A" 2, mkQ "B" 1]) = 2 := by
  refine ⟨?_, ?_, by decide⟩
  · intro cs qs h
    exact questionInstrs_no_break cs qs (fun q hq => Or.inl (h q hq))
  · intro cs t qs hs hcs hall hne
    cases qs with
    | nil => exact absurd rfl hne
    | cons q rest =>
      have hq : q.sec = t := hall q (List.mem_cons_self q rest)
      have hcond : q.sec ≠ "" ∧ cs ≠ some q.sec :=
        ⟨fun h0 => hs (hq.symm.trans h0), fun h0 => hcs (h0.trans (congrArg some hq))⟩
      rw [questionInstrs, if_pos hcond,
        questionInstrs_no_break (some q.sec) rest
          (fun x hx => Or.inr (congrArg some (hq.trans (hall x (List.mem_cons_of_mem q hx)).symm))),
        countPageBreaks_cons_pb, countPageBreaks_append, countPageBreaks_questionItem,
        countPageBreaks_items]

/-- C6, counterexample: a respondent row with the unknown type `NUMBER` is
accepted (so the field list is non-empty and both page breaks are emitted),
but the stream contains no Item for it — against the claim that every
accepted field yields exactly one Item. -/
theorem C6_counterexample :
    readRespondentDetails [rowN] = [fieldN] ∧
    buildFormInstrs [fieldN] [] =
      [Instr.pageBreak ("Respondent Information") respondentHelp,
       Instr.pageBreak ("Survey Questions") surveyHelp] :=
  ⟨by decide, by decide⟩

/-- C6, amended: with a non-empty accepted field list the stream is the
`Respondent Information` page break, then exactly one Item per accepted field
of known type (TEXT/PARAGRAPH/DROPDOWN) in sorted order — fields of any other
type emit nothing — then the `Survey Questions` page break, then the question
walk. -/
theorem C6_respondent_block (resp : List RField) (qs : List Question) (h : resp ≠ []) :
    buildFormInstrs resp qs =
      Instr.pageBreak ("Respondent Information") respondentHelp ::
        ((resp.filter (fun f => knownFieldType f.type)).map fieldItem ++
          (Instr.pageBreak ("Survey Questions") surveyHelp :: questionInstrs none qs)) := by
  unfold buildFormInstrs
  rw [if_pos (List.length_pos.mpr h), respItems_flatten]
  simp [List.append_assoc]

/-- C6 witness: the amended block shape at a concrete TEXT field. -/
theorem C6_respondent_block_witness :
    buildFormInstrs [fieldT] [] =
      Instr.pageBreak ("Respondent Information") respondentHelp ::
        (([fieldT].filter (fun f => knownFieldType f.type)).map fieldItem ++
          (Instr.pageBreak ("Survey Questions") surveyHelp :: questionInstrs none [])) :=
  C6_respondent_block [fieldT] [] (by decide)

/-- C7: compiling an input with no respondent fields and the single required
TEXT question `Age?` yields exactly one TEXT item with empty options and no
page break. -/
theorem C7_single_text_question :
    compile [] [rowAge] =
      ([Instr.item ItemKind.text ("Age?") true []], ⟨0, 1, 0, []⟩) := by
  decide

/-- C8: the operation reports a top-level failure (`ok = false`) exactly when
zero questions were accepted and zero rows were skipped; in every case the
stats object is returned unchanged — per-row problems never become a
failure. -/
theorem C8_failure_iff_empty_input (qRows : List QRow) :
    ((handleGenerateForm qRows).ok = false ↔
      (readQuestionsWithValidation qRows).2.questionsCount = 0 ∧
      (readQuestionsWithValidation qRows).2.skippedCount = 0) ∧
    (handleGenerateForm qRows).stats = (readQuestionsWithValidation qRows).2 := by
  simp only [handleGenerateForm]
  constructor
  · rw [questionsCount_eq_length]
    split
    next h => simpa using h
    next h => simpa using h
  · split <;> rfl

/-- C9: the question sort is idempotent: sorting an already-sorted list
changes nothing. -/
theorem C9_sort_idempotent (qs : List Question) :
    sortQuestions (sortQuestions qs) = sortQuestions qs :=
  List.Sorted.insertionSort_eq (List.sorted_insertionSort questionLE qs)

/-- C10: a respondent row with non-blank field name and a type outside
TEXT/PARAGRAPH/DROPDOWN is retained by `readRespondentDetails` (it is only
validated away at item emission), emits no Item, and still makes the field
list non-empty, so both respondent page breaks appear with no Item between
them. -/
theorem C10_unknown_type_field_retained (r : RRow)
    (hname : jsTrim r.fieldName ≠ "")
    (hty : knownFieldType (mkRField r).type = false) :
    parseRField r = some (mkRField r) ∧
    respondentItem (mkRField r) = [] ∧
    buildFormInstrs (readRespondentDetails [r]) [] =
      [Instr.pageBreak ("Respondent Information") respondentHelp,
       Instr.pageBreak ("Survey Questions") surveyHelp] := by
  have hnd : (mkRField r).type ≠ "DROPDOWN" := by
    intro h
    rw [knownFieldType, h] at hty
    simp at hty
  have hp : parseRField r = some (mkRField r) := by
    unfold parseRField
    rw [if_neg hname, if_neg hnd]
  have hitem : respondentItem (mkRField r) = [] := by
    rw [respondentItem_eq, hty]
    simp
  refine ⟨hp, hitem, ?_⟩
  have hrd : readRespondentDetails [r] = [mkRField r] := by
    unfold readRespondentDetails
    simp [hp, List.filterMap]
  rw [hrd]
  unfold buildFormInstrs
  rw [if_pos (by simp : 0 < ([mkRField r] : List RField).length)]
  simp [hitem]
  rfl

/-- C10 witness: the unknown-type row `rowU` concretely exercises the
retention and the empty respondent block. -/
theorem C10_unknown_type_field_retained_witness :
    parseRField rowU = some (mkRField rowU) ∧
    respondentItem (mkRField rowU) = [] ∧
    buildFormInstrs (readRespondentDetails [rowU]) [] =
      [Instr.pageBreak ("Respondent Information") respondentHelp,
       Instr.pageBreak ("Survey Questions") surveyHelp] :=
  C10_unknown_type_field_retained rowU (by decide) (by decide)

end HBMP
